import Mathlib

/-!
Verification of the article-extraction core of `actus_navigator`
(`src/actus_navigator/client.py`).

The HTML document is modelled as an already-parsed tree (`Node`), mirroring
what `BeautifulSoup(html, "html.parser")` hands to the strategies: element
nodes carry a tag name, a class list, an attribute association list and
children; text nodes carry the (entity-decoded) string.  CSS selection,
text extraction, `html.unescape`, `urllib.parse.urljoin` and `json.loads`
are modelled below, each as an executable Lean function; the three parsing
strategies and the orchestrator `parse_articles` are direct translations of
the Python source.
-/

/-- Does the list start with the given pattern? -/
def startsWithList : List Char → List Char → Bool
  | _, [] => true
  | [], _ :: _ => false
  | c :: cs, d :: ds => c = d && startsWithList cs ds

/-- Does `s` contain `sub` as a contiguous sublist? -/
def hasSubList : List Char → List Char → Bool
  | s, sub =>
    if startsWithList s sub then true
    else
      match s with
      | [] => false
      | _ :: t => hasSubList t sub

/-- Python/bs4 whitespace (`str.strip`). -/
def isPySpace (c : Char) : Bool :=
  c = ' ' || c = '\t' || c = '\n' || c = '\r' || c = Char.ofNat 11 || c = Char.ofNat 12

def dropWhileSpace : List Char → List Char
  | [] => []
  | c :: t => if isPySpace c then dropWhileSpace t else c :: t

/-- Python's `str.strip()` (ASCII whitespace). -/
def pyStrip (s : String) : String :=
  String.mk ((dropWhileSpace (dropWhileSpace s.data).reverse).reverse)

def strJoin : List String → String
  | [] => ""
  | s :: rest => s ++ strJoin rest

def strIntercalate (sep : String) : List String → String
  | [] => ""
  | [s] => s
  | s :: rest => s ++ sep ++ strIntercalate sep rest

def charLower (c : Char) : Char :=
  if 'A' ≤ c && c ≤ 'Z' then Char.ofNat (c.toNat + 32) else c

/-- Python's `str.lower()` restricted to ASCII (the schema type names). -/
def strToLower (s : String) : String := String.mk (s.data.map charLower)

def strStartsWith (s pre : String) : Bool := startsWithList s.data pre.data

/-- Substring test, modelling Python's `sub in s`. -/
def containsSub (s sub : String) : Bool := hasSubList s.data sub.data

/-- Models `html.unescape` restricted to the common named/numeric entities
that the repository's pages use (`&amp;` `&lt;` `&gt;` `&quot;` `&#39;`);
`html.unescape` additionally knows the full HTML5 entity table, which the
claims do not depend on.  Replacement is a single left-to-right pass, as in
the standard library. -/
def unescapeAux : List Char → List Char
  | [] => []
  | '&' :: 'a' :: 'm' :: 'p' :: ';' :: rest => '&' :: unescapeAux rest
  | '&' :: 'l' :: 't' :: ';' :: rest => '<' :: unescapeAux rest
  | '&' :: 'g' :: 't' :: ';' :: rest => '>' :: unescapeAux rest
  | '&' :: 'q' :: 'u' :: 'o' :: 't' :: ';' :: rest => '"' :: unescapeAux rest
  | '&' :: '#' :: '3' :: '9' :: ';' :: rest => '\'' :: unescapeAux rest
  | c :: rest => c :: unescapeAux rest

def unescape (s : String) : String := String.mk (unescapeAux s.data)

/-- Models `urllib.parse.urljoin(base, href)` for the shapes of href the
pages use: empty href resolves to the base, absolute URLs (containing
`://`) are kept, root-relative hrefs are appended to the base origin, and
bare relative hrefs are resolved against the (path-less) base. -/
def urljoin (base href : String) : String :=
  if href = "" then base
  else if containsSub href "://" then href
  else if strStartsWith href "/" then base ++ href
  else base ++ "/" ++ href

/-- `BASE_URL` from `client.py`. -/
def BASE_URL : String := "https://actus.ulb.be"

/-! ### JSON values (the result of `json.loads`) -/

inductive Json where
  | null : Json
  | bool (b : Bool) : Json
  | num (n : Int) : Json
  | str (s : String) : Json
  | arr (items : List Json) : Json
  | obj (fields : List (String × Json)) : Json
deriving Repr

/-- Python truthiness of a JSON-decoded value. -/
def Json.truthy : Json → Bool
  | .null => false
  | .bool b => b
  | .num n => n != 0
  | .str s => s ≠ ""
  | .arr l => !l.isEmpty
  | .obj f => !f.isEmpty

/-- `data.get(k)`; a missing key yields Python `None`, i.e. `.null`. -/
def Json.get : Json → String → Json
  | .obj fields, k => ((fields.find? (fun p => p.1 = k)).map (·.2)).getD .null
  | _, _ => .null

/-- Python's `a or b`: `a` when truthy, else `b`. -/
def pyOr (a b : Json) : Json := if a.truthy then a else b

/-! ### The HTML document tree -/

inductive Node where
  | text (s : String) : Node
  | elem (name : String) (classes : List String)
      (attrs : List (String × String)) (children : List Node) : Node
deriving Repr

def Node.isElem : Node → Bool
  | .text _ => false
  | .elem .. => true

def Node.nameOf : Node → String
  | .text _ => ""
  | .elem n _ _ _ => n

def Node.classesOf : Node → List String
  | .text _ => []
  | .elem _ cs _ _ => cs

/-- `tag.get(k)`: attribute lookup. -/
def Node.attrOf : Node → String → Option String
  | .text _, _ => none
  | .elem _ _ attrs _, k => ((attrs.find? (fun p => p.1 = k)).map (·.2))

/-- The text fragments of a subtree in document order
(what `get_text` concatenates). -/
def nodeTexts : Node → List String
  | .text s => [s]
  | .elem _ _ _ ch => listTexts ch
where listTexts : List Node → List String
  | [] => []
  | c :: rest => nodeTexts c ++ listTexts rest

/-- `node.get_text(strip=True)`. -/
def getTextStrip (n : Node) : String :=
  strJoin (((nodeTexts n).map pyStrip).filter (fun s => s ≠ ""))

/-- `node.get_text(" ", strip=True)`. -/
def getTextSpace (n : Node) : String :=
  strIntercalate " " (((nodeTexts n).map pyStrip).filter (fun s => s ≠ ""))

/-- `node.get_text()` (also `script.string or script.get_text()` for the
script bodies the strategies read). -/
def getTextRaw (n : Node) : String := strJoin (nodeTexts n)

/-! ### CSS selectors

Each selector string appearing in `client.py` is embedded as a `Sel`
value; `desc` is the descendant combinator (`"h2 a"`). -/

inductive Sel where
  | tag (name : String) : Sel
  | tagClass (name c : String) : Sel
  | tagClasses (name : String) (cs : List String) : Sel
  | cls (c : String) : Sel
  | tagAttrContains (name attr sub : String) : Sel
  | tagAttrPresent (name attr : String) : Sel
  | desc (anc tgt : Sel) : Sel
deriving Repr

/-- Matching of a combinator-free selector against one node. -/
def matchesAtom : Sel → Node → Bool
  | .tag t, n => n.isElem && n.nameOf = t
  | .tagClass t c, n => n.isElem && n.nameOf = t && n.classesOf.contains c
  | .tagClasses t cs, n => n.isElem && n.nameOf = t && cs.all (n.classesOf.contains ·)
  | .cls c, n => n.isElem && n.classesOf.contains c
  | .tagAttrContains t a sub, n =>
      n.isElem && n.nameOf = t &&
        (match n.attrOf a with
         | some v => containsSub v sub
         | none => false)
  | .tagAttrPresent t a, n => n.isElem && n.nameOf = t && (n.attrOf a).isSome
  | .desc _ _, _ => false

/-- Matching of a selector against a node given its ancestor chain
(nearest ancestor first); as in soupsieve, ancestor parts of a descendant
combinator may match ancestors above the scoped element. -/
def selMatches (s : Sel) (n : Node) (ancs : List Node) : Bool :=
  match s with
  | .desc a t => matchesAtom t n && ancs.any (fun p => matchesAtom a p)
  | s => matchesAtom s n

/-- A located node: the node, its position in the tree (child-index path
from the root, modelling CPython's `id`-based node identity) and its
ancestor chain, nearest first. -/
structure Loc where
  node : Node
  path : List Nat
  ancestors : List Node
deriving Repr

/-- The element descendants of a node, in document (pre-)order, as `Loc`s.
`path`/`ancs` are the node's own position and ancestor chain. -/
def nodeDescLocs : Node → List Nat → List Node → List Loc
  | .text _, _, _ => []
  | .elem nm cs ats ch, path, ancs =>
      listDescLocs ch path 0 (Node.elem nm cs ats ch :: ancs)
where listDescLocs : List Node → List Nat → Nat → List Node → List Loc
  | [], _, _, _ => []
  | c :: rest, path, i, ancs =>
      (match c with
       | .elem .. => [⟨c, path ++ [i], ancs⟩]
       | .text _ => []) ++ nodeDescLocs c (path ++ [i]) ancs
        ++ listDescLocs rest path (i + 1) ancs

/-- `loc.select(sel)`: matching element descendants in document order. -/
def select (s : Sel) (l : Loc) : List Loc :=
  (nodeDescLocs l.node l.path l.ancestors).filter
    (fun d => selMatches s d.node d.ancestors)

/-- `loc.select("s1, s2, …")`: document-order union of several selectors. -/
def selectAny (ss : List Sel) (l : Loc) : List Loc :=
  (nodeDescLocs l.node l.path l.ancestors).filter
    (fun d => ss.any (fun s => selMatches s d.node d.ancestors))

/-- `loc.select_one(sel)`. -/
def selectOne (s : Sel) (l : Loc) : Option Loc := (select s l).head?

/-- `loc.select_one("s1, s2, …")`. -/
def selectOneAny (ss : List Sel) (l : Loc) : Option Loc := (selectAny ss l).head?

/-- The root `Loc` of a document (`soup` itself; `BeautifulSoup` is a
`Tag` with no parent). -/
def rootLoc (root : Node) : Loc := ⟨root, [], []⟩

/-! ### A model of `json.loads`

An executable parser for the JSON fragment the pages use: `null`,
booleans, integers, strings (with the simple escapes), arrays and
objects.  Floats and `\uXXXX` escapes are outside the model (a payload
using them is treated as unparseable, i.e. skipped).  As in Python,
duplicate object keys keep the first position with the last value, and
trailing input is rejected. -/

def isJsonWs (c : Char) : Bool := c = ' ' || c = '\t' || c = '\n' || c = '\r'

def skipWs : List Char → List Char
  | [] => []
  | c :: rest => if isJsonWs c then skipWs rest else c :: rest

/-- The string escapes the model supports, as source/result pairs
(`\uXXXX` is outside the model). -/
def escPairs : List (Char × Char) :=
  [('"', '"'), ('\\', '\\'), ('/', '/'), ('n', '\n'), ('t', '\t'),
   ('r', '\r'), ('b', Char.ofNat 8), ('f', Char.ofNat 12)]

def escChar (c : Char) : Option Char :=
  (escPairs.find? (fun p => p.1 = c)).map (·.2)

/-- Parse a JSON string body up to the closing quote. -/
def parseStrBody : List Char → Option (List Char × List Char)
  | [] => none
  | '"' :: rest => some ([], rest)
  | '\\' :: c :: rest =>
      match escChar c with
      | some e => (parseStrBody rest).map (fun p => (e :: p.1, p.2))
      | none => none
  | c :: rest =>
      if c.toNat < 32 then none
      else (parseStrBody rest).map (fun p => (c :: p.1, p.2))

def digitsToNat (ds : List Char) : Nat :=
  ds.foldl (fun a c => a * 10 + (c.toNat - 48)) 0

/-- Parse the digits of an (integer) number; a following `.`/`e`/`E`
would make it a float, which is outside the model. -/
def parseNat (cs : List Char) : Option (Nat × List Char) :=
  let p := cs.span Char.isDigit
  if p.1.isEmpty then none
  else
    match p.2 with
    | c :: _ => if c = '.' || c = 'e' || c = 'E' then none else some (digitsToNat p.1, p.2)
    | [] => some (digitsToNat p.1, p.2)

/-- Python dict insertion: an existing key keeps its position and takes
the new value. -/
def objInsert : List (String × Json) → String → Json → List (String × Json)
  | [], k, v => [(k, v)]
  | (k', v') :: rest, k, v =>
      if k' = k then (k', v) :: rest else (k', v') :: objInsert rest k v

/-- Recognize a literal keyword (`null` / `true` / `false`). -/
def keyword (cs : List Char) (kw : String) : Option (List Char) :=
  if startsWithList cs kw.data then some (cs.drop kw.length) else none

mutual

def parseVal : Nat → List Char → Option (Json × List Char)
  | 0, _ => none
  | fuel + 1, cs =>
    match keyword (skipWs cs) "null" with
    | some r => some (.null, r)
    | none =>
    match keyword (skipWs cs) "true" with
    | some r => some (.bool true, r)
    | none =>
    match keyword (skipWs cs) "false" with
    | some r => some (.bool false, r)
    | none =>
    match skipWs cs with
    | '"' :: rest => (parseStrBody rest).map (fun p => (.str (String.mk p.1), p.2))
    | '[' :: rest =>
        (match skipWs rest with
         | ']' :: rest2 => some (.arr [], rest2)
         | cs2 => parseArrElems fuel cs2 [])
    | '{' :: rest =>
        (match skipWs rest with
         | '}' :: rest2 => some (.obj [], rest2)
         | cs2 => parseObjElems fuel cs2 [])
    | '-' :: rest => (parseNat rest).map (fun p => (.num (-(p.1 : Int)), p.2))
    | c :: rest =>
        if c.isDigit then (parseNat (c :: rest)).map (fun p => (.num (p.1 : Int), p.2))
        else none
    | [] => none

def parseArrElems : Nat → List Char → List Json → Option (Json × List Char)
  | 0, _, _ => none
  | fuel + 1, cs, acc =>
    match parseVal fuel cs with
    | none => none
    | some (v, rest) =>
      match skipWs rest with
      | ',' :: rest2 => parseArrElems fuel rest2 (acc ++ [v])
      | ']' :: rest2 => some (.arr (acc ++ [v]), rest2)
      | _ => none

def parseObjElems : Nat → List Char → List (String × Json) → Option (Json × List Char)
  | 0, _, _ => none
  | fuel + 1, cs, acc =>
    match skipWs cs with
    | '"' :: rest =>
      (match parseStrBody rest with
       | none => none
       | some (key, rest2) =>
         match skipWs rest2 with
         | ':' :: rest3 =>
           (match parseVal fuel rest3 with
            | none => none
            | some (v, rest4) =>
              match skipWs rest4 with
              | ',' :: rest5 => parseObjElems fuel rest5 (objInsert acc (String.mk key) v)
              | '}' :: rest5 => some (.obj (objInsert acc (String.mk key) v), rest5)
              | _ => none)
         | _ => none)
    | _ => none

end

/-- `json.loads`: parse one value and reject trailing input. -/
def jsonLoads (s : String) : Option Json :=
  match parseVal (s.length + 1) s.data with
  | some (v, rest) => if (skipWs rest).isEmpty then some v else none
  | none => none

/-! ### The `Article` record and the selector lists of `client.py` -/

/-- The `Article` dataclass. -/
structure Article where
  title : String
  url : String
  summary : String
  date : Option String := none
deriving Repr, DecidableEq

/-- `container_selectors` in `_parse_from_containers`. -/
def container_selectors : List Sel :=
  [.tagClass "div" "view-content",
   .tagClass "div" "layout__region",
   .tagClass "div" "region-content",
   .tag "main"]

/-- The card selectors of `_iter_article_nodes`. -/
def card_selectors : List Sel :=
  [.tag "article",
   .tagClass "div" "views-row",
   .tagClass "div" "node--type-actualite",
   .tagClass "div" "card",
   .tagClass "div" "news-card",
   .tagClass "div" "article-card",
   .tagClass "div" "c-card",
   .tagClass "div" "media",
   .desc (.tagClasses "ul" ["objets", "actualites"]) (.tag "li"),
   .tagClass "li" "avec_vignette",
   .tagClass "li" "views-row",
   .tagClass "li" "card",
   .tagClass "li" "search-result__item"]

/-- `"h2 a, h3 a, .card__title a, .node__title a"` in `_parse_article_card`. -/
def title_selectors : List Sel :=
  [.desc (.tag "h2") (.tag "a"),
   .desc (.tag "h3") (.tag "a"),
   .desc (.cls "card__title") (.tag "a"),
   .desc (.cls "node__title") (.tag "a")]

/-- `summary_selectors` in `_extract_summary`. -/
def summary_selectors : List Sel :=
  [.tagClass "div" "field--name-field-introduction",
   .cls "card__summary",
   .cls "node__teaser",
   .cls "views-field-field-introduction",
   .cls "field--name-field-introduction",
   .cls "c-card__summary",
   .cls "article-card__excerpt",
   .tagClass "div" "resume",
   .cls "media__content",
   .tag "p"]

/-- `date_selectors` in `_extract_date`. -/
def date_selectors : List Sel :=
  [.tag "time",
   .tagClass "span" "date",
   .cls "card__date",
   .cls "news-card__date",
   .cls "c-card__date",
   .cls "article-card__date",
   .cls "date-display-single",
   .cls "date",
   .tagClass "span" "date--debut"]

/-- The anchor selectors of `_parse_from_links` (a Python set; `select`
returns the document-order union, so set order is irrelevant). -/
def link_selectors : List Sel :=
  [.tagAttrContains "a" "href" "/toutes-les-actus",
   .tagAttrContains "a" "href" "/actualites",
   .tagAttrContains "a" "href" "/actualite",
   .tagAttrContains "a" "href" "/actus",
   .tagAttrContains "a" "href" "/news",
   .tagAttrContains "a" "href" "/agenda"]

/-! ### Field extractors (`_extract_summary`, `_extract_date`)

The Python functions walk `current = current.parent`; here the walk is
over the ancestor chain of a `Loc`. -/

/-- `node.parent` (with its position and ancestor data). -/
def parentLoc (l : Loc) : Option Loc :=
  match l.ancestors with
  | [] => none
  | p :: rest => some ⟨p, l.path.dropLast, rest⟩

/-- The node itself followed by its ancestors, as `Loc`s — the values
taken by `current` during the ancestor walk. -/
def chainLocs : Node → List Nat → List Node → List Loc
  | n, path, [] => [⟨n, path, []⟩]
  | n, path, p :: rest => ⟨n, path, p :: rest⟩ :: chainLocs p path.dropLast rest

def chainOf (l : Loc) : List Loc := chainLocs l.node l.path l.ancestors

/-- One level of `_extract_summary`: the selectors are tried in order;
each selector contributes its `select_one` match, accepted when its text
is non-empty and differs from `exclude_text` (Python falsiness of the
exclude applies). -/
def summaryOk (ex : Option String) (sm : String) : Bool :=
  sm ≠ "" && (match ex with | none => true | some e => e = "" || sm ≠ e)

def summaryHitFrom (ex : Option String) (cur : Loc) : List Sel → Option String
  | [] => none
  | s :: rest =>
    match selectOne s cur with
    | some t =>
      if summaryOk ex (getTextSpace t.node) then some (getTextSpace t.node)
      else summaryHitFrom ex cur rest
    | none => summaryHitFrom ex cur rest

def summaryHit (ex : Option String) (cur : Loc) : Option String :=
  summaryHitFrom ex cur summary_selectors

/-- The `while current is not None and depth <= 5` loop of
`_extract_summary`. -/
def extractSummaryWalk (ex : Option String) : List Loc → Nat → String
  | [], _ => ""
  | cur :: rest, depth =>
    if depth ≤ 5 then
      match summaryHit ex cur with
      | some s => s
      | none => extractSummaryWalk ex rest (depth + 1)
    else ""

/-- `_extract_summary(node, exclude_text=ex)`. -/
def extract_summary (l : Loc) (ex : Option String) : String :=
  extractSummaryWalk ex (chainOf l) 0

/-- One level of `_extract_date`. -/
def dateHitFrom (cur : Loc) : List Sel → Option String
  | [] => none
  | s :: rest =>
    match selectOne s cur with
    | some t =>
      if getTextStrip t.node ≠ "" then some (getTextStrip t.node)
      else dateHitFrom cur rest
    | none => dateHitFrom cur rest

def dateHit (cur : Loc) : Option String := dateHitFrom cur date_selectors

/-- The ancestor-walk loop of `_extract_date`. -/
def extractDateWalk : List Loc → Nat → Option String
  | [], _ => none
  | cur :: rest, depth =>
    if depth ≤ 5 then
      match dateHit cur with
      | some s => some s
      | none => extractDateWalk rest (depth + 1)
    else none

/-- `_extract_date(node)`. -/
def extract_date (l : Loc) : Option String := extractDateWalk (chainOf l) 0

/-! ### Container/Card strategy -/

/-- `_select_title_link`: among `a[href]` descendants whose href contains
`/actus/` or `/actualites/`, the one with the longest stripped text, ties
broken by document order (Python's stable descending sort + `[0]`). -/
def pickLongestText : List Loc → Option Loc
  | [] => none
  | c :: rest =>
      some (rest.foldl
        (fun best l =>
          if (getTextStrip l.node).length > (getTextStrip best.node).length then l else best)
        c)

def select_title_link (node : Loc) : Option Loc :=
  let cands := (select (.tagAttrPresent "a" "href") node).filter
    (fun l =>
      match l.node.attrOf "href" with
      | some h => h ≠ "" && (containsSub h "/actus/" || containsSub h "/actualites/")
      | none => false)
  pickLongestText cands

/-- `_parse_article_card`. -/
def parse_article_card (card : Loc) : Option Article :=
  let title_tag :=
    match selectOneAny title_selectors card with
    | some t => some t
    | none => select_title_link card
  match title_tag with
  | none => none
  | some tl =>
    if getTextStrip tl.node = "" then none
    else
      let title := unescape (getTextStrip tl.node)
      some { title := title,
             url := urljoin BASE_URL (pyStrip ((tl.node.attrOf "href").getD "")),
             summary := extract_summary card (some title),
             date := extract_date card }

/-- The node-identity dedup of `_iter_article_nodes` (`id(node)` becomes
the tree path). -/
def dedupLocs : List Loc → List (List Nat) → List Loc
  | [], _ => []
  | l :: rest, seen =>
    if l.path ∈ seen then dedupLocs rest seen
    else l :: dedupLocs rest (l.path :: seen)

/-- `_iter_article_nodes(container)`. -/
def iter_article_nodes (container : Loc) : List Loc :=
  dedupLocs (card_selectors.flatMap (fun s => select s container)) []

/-- The inner loop of `_parse_from_containers`: parse each card node,
appending unseen URLs. -/
def addCards : List Loc → List String → List Article → List Article × List String
  | [], seen, articles => (articles, seen)
  | n :: rest, seen, articles =>
    match parse_article_card n with
    | some a =>
      if a.url ∈ seen then addCards rest seen articles
      else addCards rest (a.url :: seen) (articles ++ [a])
    | none => addCards rest seen articles

/-- The container loop of `_parse_from_containers` (`break` as soon as
`articles` is non-empty). -/
def containersGo : List Loc → List String → List Article → List Article
  | [], _, articles => articles
  | c :: rest, seen, articles =>
    let p := addCards (iter_article_nodes c) seen articles
    if p.1.isEmpty then containersGo rest p.2 p.1 else p.1

/-- The concatenated matches of the container selectors. -/
def containerMatches (root : Node) : List Loc :=
  container_selectors.flatMap (fun s => select s (rootLoc root))

/-- `_parse_from_containers(soup)`. -/
def parse_from_containers (root : Node) : List Article :=
  let cs := containerMatches root
  containersGo (if cs.isEmpty then [rootLoc root] else cs) [] []

/-! ### Link-fallback strategy -/

/-- `_parse_article_from_link`. -/
def parse_article_from_link (link : Loc) : Option Article :=
  let text := getTextStrip link.node
  match link.node.attrOf "href" with
  | none => none
  | some h =>
    if text = "" || h = "" then none
    else
      let base := (parentLoc link).getD link
      some { title := unescape text,
             url := urljoin BASE_URL (pyStrip h),
             summary := extract_summary base (some text),
             date := extract_date base }

/-- The candidate anchors of `_parse_from_links`, in document order. -/
def linkCandidates (root : Node) : List Loc := selectAny link_selectors (rootLoc root)

def linksGo : List Loc → List String → List Article
  | [], _ => []
  | l :: rest, seen =>
    match parse_article_from_link l with
    | some a =>
      if a.url ∈ seen then linksGo rest seen
      else a :: linksGo rest (a.url :: seen)
    | none => linksGo rest seen

/-- `_parse_from_links(soup)`. -/
def parse_from_links (root : Node) : List Article := linksGo (linkCandidates root) []

/-! ### Structured-data strategy -/

/-- `soup.find_all("script", attrs={"type": [...]})`, document order. -/
def scriptNodes (root : Node) : List Node :=
  ((nodeDescLocs root [] []).filter
    (fun l =>
      l.node.nameOf = "script" &&
        (l.node.attrOf "type" = some "application/ld+json" ||
         l.node.attrOf "type" = some "application/json"))).map (·.node)

/-- `script.string or script.get_text()`, then `json.loads`, skipping
empty or unparseable bodies. -/
def scriptJson (sc : Node) : Option Json :=
  let text := getTextRaw sc
  if text = "" then none else jsonLoads text

/-- `_iter_json_nodes`. -/
def iter_json_nodes : Json → List Json
  | .obj fields => Json.obj fields :: goFields fields
  | .arr items => goList items
  | _ => []
where
  goFields : List (String × Json) → List Json
    | [] => []
    | (_, v) :: rest => iter_json_nodes v ++ goFields rest
  goList : List Json → List Json
    | [] => []
    | x :: rest => iter_json_nodes x ++ goList rest

/-- The type allow-set of `_article_from_json`. -/
def allowedTypes : List String := ["newsarticle", "article", "creativework", "listitem"]

/-- `{t.lower() for t in type_hint if isinstance(t, str)}` (as a list;
only emptiness and membership are consumed). -/
def typeStrings : Json → List String
  | .arr l => l.filterMap (fun x => match x with | .str s => some (strToLower s) | _ => none)
  | .str s => [strToLower s]
  | _ => []

/-- `_article_from_json`. -/
def article_from_json (data : Json) : Option Article :=
  match data with
  | .obj _ =>
    let types := typeStrings (pyOr (data.get "@type") (data.get "type"))
    if !types.isEmpty && !types.any (fun t => allowedTypes.contains t) then none
    else
      match pyOr (data.get "url") (data.get "@id") with
      | .str u =>
        if pyStrip u = "" then none
        else
          match pyOr (data.get "headline")
                  (pyOr (data.get "name") (pyOr (data.get "title") (data.get "text"))) with
          | .str t =>
            if pyStrip t = "" then none
            else
              let summary :=
                match pyOr (data.get "description") (data.get "abstract") with
                | .str s => s
                | _ => ""
              let date :=
                match pyOr (data.get "datePublished")
                        (pyOr (data.get "dateCreated") (data.get "dateModified")) with
                | .str d => some d
                | _ => none
              some { title := unescape (pyStrip t),
                     url := urljoin BASE_URL (pyStrip u),
                     summary := unescape (pyStrip summary),
                     date := match date with
                       | some d => if d = "" then none else some (pyStrip d)
                       | none => none }
          | _ => none
      | _ => none
  | _ => none

/-- The payload loop over one script's JSON value. -/
def sdScriptGo : List Json → List String → List Article × List String
  | [], seen => ([], seen)
  | p :: rest, seen =>
    match article_from_json p with
    | some a =>
      if a.url ∈ seen then sdScriptGo rest seen
      else
        let r := sdScriptGo rest (a.url :: seen)
        (a :: r.1, r.2)
    | none => sdScriptGo rest seen

/-- The script loop of `_parse_from_structured_data` (`seen_urls` is
shared across scripts). -/
def sdScriptsGo : List Node → List String → List Article
  | [], _ => []
  | sc :: rest, seen =>
    match scriptJson sc with
    | none => sdScriptsGo rest seen
    | some j =>
      let r := sdScriptGo (iter_json_nodes j) seen
      r.1 ++ sdScriptsGo rest r.2

/-- `_parse_from_structured_data(soup)`. -/
def parse_from_structured_data (root : Node) : List Article :=
  sdScriptsGo (scriptNodes root) []

/-! ### Orchestrator -/

/-- `parse_articles(html)`; `none` models raising `ArticleListParseError`
(which carries no partial results — only a message). -/
def parse_articles (root : Node) : Option (List Article) :=
  let a1 := parse_from_containers root
  let a2 := if a1.isEmpty then parse_from_structured_data root else a1
  let a3 := if a2.isEmpty then parse_from_links root else a2
  if a3.isEmpty then none else some a3

/-! ### Spec-side abstractions

`dedupFirstSeen` is the spec's dedup policy ("URL is the dedup key;
first-seen candidate kept, later ones dropped, order of first discovery
preserved"); the loops above are proved equal to it applied to each
strategy's raw candidate stream. -/

def dedupFirstSeen : List Article → List String → List Article
  | [], _ => []
  | a :: rest, seen =>
    if a.url ∈ seen then dedupFirstSeen rest seen
    else a :: dedupFirstSeen rest (a.url :: seen)

/-- The seen-URL set after scanning a candidate stream. -/
def seenAfter : List Article → List String → List String
  | [], seen => seen
  | a :: rest, seen =>
    if a.url ∈ seen then seenAfter rest seen
    else seenAfter rest (a.url :: seen)

/-- The raw (pre-dedup) card articles of one container. -/
def cardsRaw (c : Loc) : List Article :=
  (iter_article_nodes c).filterMap parse_article_card

/-- The deduplicated cards of one container. -/
def cardsOf (c : Loc) : List Article := dedupFirstSeen (cardsRaw c) []

/-- The effective container list: the selector matches, or the whole
document when none matched. -/
def effContainers (root : Node) : List Loc :=
  if (containerMatches root).isEmpty then [rootLoc root] else containerMatches root

/-- The cards of the first container element that yields any. -/
def firstProductive : List Loc → List Article
  | [] => []
  | c :: rest => if cardsOf c = [] then firstProductive rest else cardsOf c

/-- The raw card stream of the first productive container element. -/
def firstRaw : List Loc → List Article
  | [] => []
  | c :: rest => if cardsRaw c = [] then firstRaw rest else cardsRaw c

/-- The raw candidate stream of the container strategy. -/
def containersRaw (root : Node) : List Article := firstRaw (effContainers root)

/-- The raw candidate stream of the link-fallback strategy. -/
def linksRaw (root : Node) : List Article :=
  (linkCandidates root).filterMap parse_article_from_link

/-- The raw candidate stream contributed by one script block. -/
def sdRawScript (sc : Node) : List Article :=
  match scriptJson sc with
  | none => []
  | some j => (iter_json_nodes j).filterMap article_from_json

/-- The raw candidate stream of the structured-data strategy. -/
def sdRaw (root : Node) : List Article := (scriptNodes root).flatMap sdRawScript

/-- Spec-side (claim C8): "a non-empty string url-like / title-like
field, checked across several aliases" — some alias holds a non-empty
string — together with the spec's type filter. -/
def hasNonEmptyStrField (fields : List (String × Json)) (k : String) : Bool :=
  match (Json.obj fields).get k with
  | .str s => pyStrip s ≠ ""
  | _ => false

def specC8Accepts (fields : List (String × Json)) : Bool :=
  (["url", "@id"].any (fun k => hasNonEmptyStrField fields k)) &&
  (["headline", "name", "title", "text"].any (fun k => hasNonEmptyStrField fields k)) &&
  (let types := typeStrings (pyOr ((Json.obj fields).get "@type") ((Json.obj fields).get "type"))
   types.isEmpty || types.any (fun t => allowedTypes.contains t))

/-- Is a value a string that is non-empty after stripping? (the
acceptance test `_article_from_json` applies to the alias-chain value) -/
def pyStrOk : Json → Bool
  | .str s => pyStrip s ≠ ""
  | _ => false

/-! ### Concrete documents (used by witnesses and counterexamples) -/

/-- A listing document with one `div.view-content` container holding two
cards with distinct URLs. -/
def docTwoCards : Node :=
  .elem "[document]" [] [] [.elem "html" [] [] [.elem "body" [] [] [
    .elem "div" ["view-content"] [] [
      .elem "div" ["views-row"] [] [
        .elem "div" ["card__date"] [] [.text "1 janvier 2024"],
        .elem "h3" [] [] [.elem "a" [] [("href", "/fr/actus/a1")] [.text "Titre 1"]],
        .elem "div" ["card__summary"] [] [.text "Resume 1"]],
      .elem "div" ["views-row"] [] [
        .elem "h2" [] [] [.elem "a" [] [("href", "/fr/actus/a2")] [.text "Titre 2"]],
        .elem "div" ["field--name-field-introduction"] [] [.text "Resume 2"],
        .elem "time" [] [] [.text "15 fevrier 2024"]]]]]]

def artTwoCards1 : Article :=
  { title := "Titre 1", url := "https://actus.ulb.be/fr/actus/a1",
    summary := "Resume 1", date := some "1 janvier 2024" }

def artTwoCards2 : Article :=
  { title := "Titre 2", url := "https://actus.ulb.be/fr/actus/a2",
    summary := "Resume 2", date := some "15 fevrier 2024" }

/-- A document whose only article markup is one `ld+json` block in which
`description` equals `headline`. -/
def docSdSame : Node :=
  .elem "[document]" [] [] [.elem "html" [] [] [.elem "body" [] [] [
    .elem "script" [] [("type", "application/ld+json")] [
      .text "\x7b\"@type\":\"NewsArticle\",\"url\":\"/a\",\"headline\":\"Hello\",\"description\":\"Hello\"\x7d"]]]]

def artSdSame : Article :=
  { title := "Hello", url := "https://actus.ulb.be/a", summary := "Hello", date := none }

/-- A document with no recognizable article markup. -/
def docEmpty : Node :=
  .elem "[document]" [] [] [.elem "html" [] [] [.elem "body" [] [] []]]

/-- Two `div.view-content` containers, each with one parseable card; the
cards have distinct URLs. -/
def docTwoContainers : Node :=
  .elem "[document]" [] [] [.elem "html" [] [] [.elem "body" [] [] [
    .elem "div" ["view-content"] [] [
      .elem "div" ["views-row"] [] [
        .elem "h2" [] [] [.elem "a" [] [("href", "/fr/actus/c1")] [.text "C1"]]]],
    .elem "div" ["view-content"] [] [
      .elem "div" ["views-row"] [] [
        .elem "h2" [] [] [.elem "a" [] [("href", "/fr/actus/c2")] [.text "C2"]]]]]]]

/-- The second `div.view-content` of `docTwoContainers`, as located by
`containerMatches`. -/
def secondContainerLoc : Loc :=
  { node := .elem "div" ["view-content"] [] [
      .elem "div" ["views-row"] [] [
        .elem "h2" [] [] [.elem "a" [] [("href", "/fr/actus/c2")] [.text "C2"]]]],
    path := [0, 0, 1],
    ancestors := [.elem "body" [] [] [
      .elem "div" ["view-content"] [] [
        .elem "div" ["views-row"] [] [
          .elem "h2" [] [] [.elem "a" [] [("href", "/fr/actus/c1")] [.text "C1"]]]],
      .elem "div" ["view-content"] [] [
        .elem "div" ["views-row"] [] [
          .elem "h2" [] [] [.elem "a" [] [("href", "/fr/actus/c2")] [.text "C2"]]]]],
     .elem "html" [] [] [.elem "body" [] [] [
      .elem "div" ["view-content"] [] [
        .elem "div" ["views-row"] [] [
          .elem "h2" [] [] [.elem "a" [] [("href", "/fr/actus/c1")] [.text "C1"]]]],
      .elem "div" ["view-content"] [] [
        .elem "div" ["views-row"] [] [
          .elem "h2" [] [] [.elem "a" [] [("href", "/fr/actus/c2")] [.text "C2"]]]]]],
     docTwoContainers] }

def artCont1 : Article :=
  { title := "C1", url := "https://actus.ulb.be/fr/actus/c1", summary := "", date := none }

def artCont2 : Article :=
  { title := "C2", url := "https://actus.ulb.be/fr/actus/c2", summary := "", date := none }

/-- A document with a parseable card (`article` node) but no match for
any container selector. -/
def docNoContainer : Node :=
  .elem "[document]" [] [] [.elem "html" [] [] [.elem "body" [] [] [
    .elem "article" [] [] [
      .elem "h2" [] [] [.elem "a" [] [("href", "/fr/actus/n1")] [.text "N1"]]]]]]

/-- A card whose title anchor has non-empty text but no `href`. -/
def cardNoHref : Loc :=
  { node := .elem "div" ["views-row"] [] [
      .elem "h2" [] [] [.elem "a" [] [] [.text "Sans lien"]]],
    path := [0], ancestors := [.elem "[document]" [] [] [
      .elem "div" ["views-row"] [] [
        .elem "h2" [] [] [.elem "a" [] [] [.text "Sans lien"]]]]] }

/-- The title anchor inside `cardNoHref`. -/
def anchorNoHref : Loc :=
  { node := .elem "a" [] [] [.text "Sans lien"],
    path := [0, 0, 0],
    ancestors := [.elem "h2" [] [] [.elem "a" [] [] [.text "Sans lien"]],
      .elem "div" ["views-row"] [] [
        .elem "h2" [] [] [.elem "a" [] [] [.text "Sans lien"]]],
      .elem "[document]" [] [] [
        .elem "div" ["views-row"] [] [
          .elem "h2" [] [] [.elem "a" [] [] [.text "Sans lien"]]]]] }

/-- An anchor whose `href` attribute is the empty string. -/
def anchorEmptyHref : Loc :=
  { node := .elem "a" [] [("href", "")] [.text "Vide"],
    path := [0], ancestors := [.elem "[document]" [] [] [
      .elem "a" [] [("href", "")] [.text "Vide"]]] }

/-- A card with a summary element, for exercising the extractor. -/
def cardWithSummary : Loc :=
  { node := .elem "div" ["views-row"] [] [
      .elem "h2" [] [] [.elem "a" [] [("href", "/fr/actus/s1")] [.text "T"]],
      .elem "div" ["card__summary"] [] [.text "S"]],
    path := [0], ancestors := [.elem "[document]" [] [] [
      .elem "div" ["views-row"] [] [
        .elem "h2" [] [] [.elem "a" [] [("href", "/fr/actus/s1")] [.text "T"]],
        .elem "div" ["card__summary"] [] [.text "S"]]]] }

/-- The C8 counterexample payload: `url` holds a truthy non-string, `@id`
holds a valid URL string. -/
def d8fields : List (String × Json) :=
  [("url", .bool true), ("@id", .str "https://actus.ulb.be/x"), ("headline", .str "T")]

/-! ### Helper lemmas: the strategy loops are first-seen URL dedup -/

theorem seenAfter_of_dedup_nil : ∀ (l : List Article) (s : List String),
    dedupFirstSeen l s = [] → seenAfter l s = s
  | [], _, _ => rfl
  | a :: rest, s, h => by
    by_cases hm : a.url ∈ s
    · simp only [dedupFirstSeen, if_pos hm] at h
      simp only [seenAfter, if_pos hm]
      exact seenAfter_of_dedup_nil rest s h
    · simp only [dedupFirstSeen, if_neg hm] at h
      exact absurd h (List.cons_ne_nil _ _)

theorem dedupFirstSeen_nil_iff (l : List Article) :
    dedupFirstSeen l [] = [] ↔ l = [] := by
  cases l with
  | nil => simp [dedupFirstSeen]
  | cons a rest => simp [dedupFirstSeen]

theorem dedupFirstSeen_append (l₁ l₂ : List Article) (s : List String) :
    dedupFirstSeen (l₁ ++ l₂) s =
      dedupFirstSeen l₁ s ++ dedupFirstSeen l₂ (seenAfter l₁ s) := by
  induction l₁ generalizing s with
  | nil => rfl
  | cons a rest ih =>
    by_cases hm : a.url ∈ s
    · simp [dedupFirstSeen, seenAfter, if_pos hm, ih]
    · simp [dedupFirstSeen, seenAfter, if_neg hm, ih]

theorem mem_dedupFirstSeen (a : Article) : ∀ (l : List Article) (s : List String),
    a ∈ dedupFirstSeen l s → a ∈ l
  | [], _, h => by simp [dedupFirstSeen] at h
  | b :: rest, s, h => by
    by_cases hm : b.url ∈ s
    · simp only [dedupFirstSeen, if_pos hm] at h
      exact List.mem_cons_of_mem _ (mem_dedupFirstSeen a rest s h)
    · simp only [dedupFirstSeen, if_neg hm, List.mem_cons] at h
      rcases h with h | h
      · exact h ▸ List.mem_cons_self _ _
      · exact List.mem_cons_of_mem _ (mem_dedupFirstSeen a rest _ h)

theorem url_notin_seen_of_mem_dedup (a : Article) : ∀ (l : List Article) (s : List String),
    a ∈ dedupFirstSeen l s → a.url ∉ s
  | [], _, h => by simp [dedupFirstSeen] at h
  | b :: rest, s, h => by
    by_cases hm : b.url ∈ s
    · simp only [dedupFirstSeen, if_pos hm] at h
      exact url_notin_seen_of_mem_dedup a rest s h
    · simp only [dedupFirstSeen, if_neg hm, List.mem_cons] at h
      rcases h with h | h
      · exact h ▸ hm
      · intro hs
        exact url_notin_seen_of_mem_dedup a rest _ h (List.mem_cons_of_mem _ hs)

theorem dedupFirstSeen_pairwise : ∀ (l : List Article) (s : List String),
    (dedupFirstSeen l s).Pairwise (fun a b => a.url ≠ b.url)
  | [], _ => List.Pairwise.nil
  | a :: rest, s => by
    by_cases hm : a.url ∈ s
    · simp only [dedupFirstSeen, if_pos hm]
      exact dedupFirstSeen_pairwise rest s
    · simp only [dedupFirstSeen, if_neg hm]
      refine List.Pairwise.cons ?_ (dedupFirstSeen_pairwise rest _)
      intro b hb hab
      exact url_notin_seen_of_mem_dedup b rest _ hb (hab ▸ List.mem_cons_self _ _)

theorem linksGo_eq : ∀ (cs : List Loc) (seen : List String),
    linksGo cs seen = dedupFirstSeen (cs.filterMap parse_article_from_link) seen
  | [], _ => rfl
  | l :: rest, seen => by
    cases h : parse_article_from_link l with
    | none => simp [linksGo, h, List.filterMap_cons, linksGo_eq rest seen]
    | some a =>
      by_cases hm : a.url ∈ seen
      · simp [linksGo, h, List.filterMap_cons, dedupFirstSeen, if_pos hm,
          linksGo_eq rest seen]
      · simp [linksGo, h, List.filterMap_cons, dedupFirstSeen, if_neg hm,
          linksGo_eq rest (a.url :: seen)]

theorem parse_from_links_eq (root : Node) :
    parse_from_links root = dedupFirstSeen (linksRaw root) [] :=
  linksGo_eq _ _

theorem sdScriptGo_eq : ∀ (ps : List Json) (seen : List String),
    sdScriptGo ps seen = (dedupFirstSeen (ps.filterMap article_from_json) seen,
      seenAfter (ps.filterMap article_from_json) seen)
  | [], _ => rfl
  | p :: rest, seen => by
    cases h : article_from_json p with
    | none => simp [sdScriptGo, h, List.filterMap_cons, sdScriptGo_eq rest seen]
    | some a =>
      by_cases hm : a.url ∈ seen
      · simp [sdScriptGo, h, List.filterMap_cons, dedupFirstSeen, seenAfter,
          if_pos hm, sdScriptGo_eq rest seen]
      · simp [sdScriptGo, h, List.filterMap_cons, dedupFirstSeen, seenAfter,
          if_neg hm, sdScriptGo_eq rest (a.url :: seen)]

theorem sdScriptsGo_eq : ∀ (scs : List Node) (seen : List String),
    sdScriptsGo scs seen = dedupFirstSeen (scs.flatMap sdRawScript) seen
  | [], _ => rfl
  | sc :: rest, seen => by
    cases h : scriptJson sc with
    | none =>
      simp [sdScriptsGo, h, List.flatMap_cons, sdRawScript, sdScriptsGo_eq rest seen]
    | some j =>
      simp only [sdScriptsGo, h, List.flatMap_cons, sdRawScript]
      rw [sdScriptGo_eq, dedupFirstSeen_append, sdScriptsGo_eq rest _]

theorem parse_from_structured_data_eq (root : Node) :
    parse_from_structured_data root = dedupFirstSeen (sdRaw root) [] :=
  sdScriptsGo_eq _ _

theorem addCards_eq : ∀ (cs : List Loc) (seen : List String) (arts : List Article),
    addCards cs seen arts =
      (arts ++ dedupFirstSeen (cs.filterMap parse_article_card) seen,
       seenAfter (cs.filterMap parse_article_card) seen)
  | [], _, _ => by simp [addCards, dedupFirstSeen, seenAfter]
  | n :: rest, seen, arts => by
    cases h : parse_article_card n with
    | none => simp [addCards, h, List.filterMap_cons, addCards_eq rest seen arts]
    | some a =>
      by_cases hm : a.url ∈ seen
      · simp [addCards, h, List.filterMap_cons, dedupFirstSeen, seenAfter,
          if_pos hm, addCards_eq rest seen arts]
      · simp [addCards, h, List.filterMap_cons, dedupFirstSeen, seenAfter,
          if_neg hm, addCards_eq rest (a.url :: seen) (arts ++ [a])]

theorem containersGo_eq : ∀ (cs : List Loc),
    containersGo cs [] [] = dedupFirstSeen (firstRaw cs) []
  | [] => rfl
  | c :: rest => by
    have h1 : addCards (iter_article_nodes c) [] [] =
        (dedupFirstSeen (cardsRaw c) [], seenAfter (cardsRaw c) []) := by
      simpa [cardsRaw] using addCards_eq (iter_article_nodes c) [] []
    by_cases he : cardsRaw c = []
    · have h2 : dedupFirstSeen (cardsRaw c) [] = [] := by simp [he, dedupFirstSeen]
      have h3 : seenAfter (cardsRaw c) [] = [] := seenAfter_of_dedup_nil _ _ h2
      simp only [containersGo, h1, h2, h3, List.isEmpty_nil, firstRaw, if_pos he]
      simpa using containersGo_eq rest
    · have hd : dedupFirstSeen (cardsRaw c) [] ≠ [] :=
        fun h => he ((dedupFirstSeen_nil_iff _).mp h)
      simp only [containersGo, h1, firstRaw, if_neg he]
      rw [if_neg (by simpa [List.isEmpty_iff] using hd)]

theorem parse_from_containers_eq (root : Node) :
    parse_from_containers root = dedupFirstSeen (containersRaw root) [] := by
  unfold parse_from_containers containersRaw effContainers
  by_cases h : (containerMatches root).isEmpty
  · simp only [h, if_pos rfl, if_true]
    exact containersGo_eq _
  · simp only [h, if_false, Bool.false_eq_true]
    exact containersGo_eq _

/-! ### Helper lemmas: the summary extractor -/

theorem summaryOk_spec (ex : Option String) (sm : String) (h : summaryOk ex sm = true) :
    sm ≠ "" ∧ ∀ e, ex = some e → e ≠ "" → sm ≠ e := by
  cases ex with
  | none =>
    simp only [summaryOk, Bool.and_eq_true, decide_eq_true_iff] at h
    exact ⟨h.1, by simp⟩
  | some e =>
    simp only [summaryOk, Bool.and_eq_true, Bool.or_eq_true, decide_eq_true_iff] at h
    refine ⟨h.1, ?_⟩
    intro e' heq hne
    cases heq
    rcases h.2 with h2 | h2
    · exact absurd h2 hne
    · exact h2

theorem summaryHitFrom_ok (ex : Option String) (cur : Loc) :
    ∀ (sels : List Sel) (s : String), summaryHitFrom ex cur sels = some s →
      summaryOk ex s = true
  | [], s, h => by simp [summaryHitFrom] at h
  | sel :: rest, s, h => by
    rw [summaryHitFrom] at h
    revert h
    cases hso : selectOne sel cur with
    | none =>
      intro h
      exact summaryHitFrom_ok ex cur rest s h
    | some t =>
      intro h
      have h' : (if summaryOk ex (getTextSpace t.node) = true
          then some (getTextSpace t.node)
          else summaryHitFrom ex cur rest) = some s := h
      by_cases hc : summaryOk ex (getTextSpace t.node) = true
      · rw [if_pos hc] at h'
        cases h'
        exact hc
      · rw [if_neg hc] at h'
        exact summaryHitFrom_ok ex cur rest s h'

theorem summaryHit_ok (ex : Option String) (cur : Loc) (s : String)
    (h : summaryHit ex cur = some s) : summaryOk ex s = true :=
  summaryHitFrom_ok ex cur summary_selectors s h

theorem extractSummaryWalk_ne_exclude (ex : Option String) (e : String)
    (hex : ex = some e) (he : e ≠ "") :
    ∀ (chain : List Loc) (d : Nat),
      extractSummaryWalk ex chain d ≠ "" → extractSummaryWalk ex chain d ≠ e
  | [], d, hne => by simp [extractSummaryWalk] at hne
  | cur :: rest, d, hne => by
    rw [extractSummaryWalk] at hne ⊢
    by_cases hd : d ≤ 5
    · rw [if_pos hd] at hne ⊢
      revert hne
      cases hh : summaryHit ex cur with
      | some s =>
        intro _
        exact (summaryOk_spec ex s (summaryHit_ok ex cur s hh)).2 e hex he
      | none =>
        intro hne
        exact extractSummaryWalk_ne_exclude ex e hex he rest (d + 1) hne
    · rw [if_neg hd] at hne
      exact absurd rfl hne

/-- The ancestor walk consults at most the node and 5 ancestors. -/
theorem extractSummaryWalk_eq_take (ex : Option String) :
    ∀ (chain : List Loc) (d : Nat),
      extractSummaryWalk ex chain d =
        ((chain.take (6 - d)).findSome? (summaryHit ex)).getD ""
  | [], d => by simp [extractSummaryWalk]
  | cur :: rest, d => by
    by_cases hd : d ≤ 5
    · have h6 : 6 - d = (6 - (d + 1)) + 1 := by omega
      rw [extractSummaryWalk, if_pos hd, h6, List.take_succ_cons, List.findSome?_cons]
      cases hh : summaryHit ex cur with
      | some s => rfl
      | none => exact extractSummaryWalk_eq_take ex rest (d + 1)
    · have h6 : 6 - d = 0 := by omega
      rw [extractSummaryWalk, if_neg hd, h6, List.take_zero]
      rfl

theorem extract_summary_ne_exclude (l : Loc) (e : String) (he : e ≠ "")
    (hne : extract_summary l (some e) ≠ "") : extract_summary l (some e) ≠ e :=
  extractSummaryWalk_ne_exclude (some e) e rfl he (chainOf l) 0 hne

/-! ### Helper lemmas: locating the producer of a container article -/

theorem firstRaw_cases : ∀ (cs : List Loc),
    firstRaw cs = [] ∨ ∃ c ∈ cs, firstRaw cs = cardsRaw c
  | [] => Or.inl rfl
  | c :: rest => by
    by_cases he : cardsRaw c = []
    · rcases firstRaw_cases rest with h | ⟨c', hc', h⟩
      · left
        simp [firstRaw, he, h]
      · right
        exact ⟨c', List.mem_cons_of_mem _ hc', by simp [firstRaw, he, h]⟩
    · right
      exact ⟨c, List.mem_cons_self _ _, by simp [firstRaw, he]⟩

theorem mem_containers_exists_card (root : Node) (a : Article)
    (h : a ∈ parse_from_containers root) :
    ∃ loc, parse_article_card loc = some a := by
  rw [parse_from_containers_eq] at h
  have h2 := mem_dedupFirstSeen a _ _ h
  rcases firstRaw_cases (effContainers root) with hc | ⟨c, _, hc⟩
  · rw [containersRaw, hc] at h2
    cases h2
  · rw [containersRaw, hc, cardsRaw] at h2
    obtain ⟨loc, _, hl⟩ := List.mem_filterMap.mp h2
    exact ⟨loc, hl⟩

theorem parse_article_card_fields (card : Loc) (a : Article)
    (h : parse_article_card card = some a) :
    a.summary = extract_summary card (some a.title) := by
  unfold parse_article_card at h
  revert h
  cases htl : (match selectOneAny title_selectors card with
      | some t => some t
      | none => select_title_link card) with
  | none =>
    intro h
    cases h
  | some tl =>
    intro h
    have h2 : (if getTextStrip tl.node = "" then none
        else some { title := unescape (getTextStrip tl.node),
                    url := urljoin BASE_URL (pyStrip ((tl.node.attrOf "href").getD "")),
                    summary := extract_summary card (some (unescape (getTextStrip tl.node))),
                    date := extract_date card }) = some a := h
    by_cases ht : getTextStrip tl.node = ""
    · rw [if_pos ht] at h2
      cases h2
    · rw [if_neg ht] at h2
      cases h2
      rfl

theorem dedup_firstRaw (cs : List Loc) :
    dedupFirstSeen (firstRaw cs) [] = firstProductive cs := by
  induction cs with
  | nil => rfl
  | cons c rest ih =>
    by_cases he : cardsRaw c = []
    · have h0 : cardsOf c = [] := by simp [cardsOf, he, dedupFirstSeen]
      simp [firstRaw, firstProductive, he, h0, ih]
    · have h0 : cardsOf c ≠ [] := fun h => he ((dedupFirstSeen_nil_iff _).mp h)
      have h1 : dedupFirstSeen (cardsRaw c) [] ≠ [] := by simpa [cardsOf] using h0
      simp [firstRaw, firstProductive, he, h1, cardsOf]

/-! ### Claim theorems -/

/-- C2: the orchestrator runs container/card, then structured-data, then
link-fallback, short-circuiting at the first strategy with a non-empty
result; the returned sequence equals exactly the winning strategy's
result and strategies are never merged. -/
theorem parse_articles_strategy_priority (root : Node) :
    (parse_from_containers root ≠ [] →
      parse_articles root = some (parse_from_containers root)) ∧
    (parse_from_containers root = [] → parse_from_structured_data root ≠ [] →
      parse_articles root = some (parse_from_structured_data root)) ∧
    (parse_from_containers root = [] → parse_from_structured_data root = [] →
      parse_from_links root ≠ [] →
      parse_articles root = some (parse_from_links root)) := by
  unfold parse_articles
  refine ⟨?_, ?_, ?_⟩
  · intro h
    simp [List.isEmpty_iff, h]
  · intro h1 h2
    simp [List.isEmpty_iff, h1, h2]
  · intro h1 h2 h3
    simp [List.isEmpty_iff, h1, h2, h3]

/-- Witness for C2: on a card-listing document the container result is
returned; on a structured-data-only document the structured result is
returned. -/
theorem parse_articles_strategy_priority_witness :
    parse_articles docTwoCards = some (parse_from_containers docTwoCards) ∧
    parse_articles docSdSame = some (parse_from_structured_data docSdSame) :=
  ⟨(parse_articles_strategy_priority docTwoCards).1 (by decide),
   (parse_articles_strategy_priority docSdSame).2.1 rfl (by decide)⟩

/-- C3: `parse_articles` fails (raises `ArticleListParseError`, modelled
by `none`) exactly when all three strategies yield zero candidates; a
returned sequence is always non-empty. -/
theorem parse_articles_failure_iff (root : Node) :
    (parse_articles root = none ↔
      parse_from_containers root = [] ∧ parse_from_structured_data root = [] ∧
        parse_from_links root = []) ∧
    (∀ arts, parse_articles root = some arts → arts ≠ []) := by
  unfold parse_articles
  constructor
  · constructor
    · intro h
      by_cases h1 : parse_from_containers root = []
      · by_cases h2 : parse_from_structured_data root = []
        · by_cases h3 : parse_from_links root = []
          · exact ⟨h1, h2, h3⟩
          · simp [List.isEmpty_iff, h1, h2, h3] at h
        · simp [List.isEmpty_iff, h1, h2] at h
      · simp [List.isEmpty_iff, h1] at h
    · rintro ⟨h1, h2, h3⟩
      simp [List.isEmpty_iff, h1, h2, h3]
  · intro arts h hnil
    subst hnil
    by_cases h1 : parse_from_containers root = []
    · by_cases h2 : parse_from_structured_data root = []
      · simp [List.isEmpty_iff, h1, h2] at h
      · simp [List.isEmpty_iff, h1, h2] at h
    · simp [List.isEmpty_iff, h1] at h

/-- Witness for C3: the empty document makes all three strategies empty
(via the failure direction), and a successful parse is non-empty. -/
theorem parse_articles_failure_iff_witness :
    (parse_from_containers docEmpty = [] ∧ parse_from_structured_data docEmpty = [] ∧
      parse_from_links docEmpty = []) ∧ ([artSdSame] ≠ []) :=
  ⟨(parse_articles_failure_iff docEmpty).1.mp rfl,
   (parse_articles_failure_iff docSdSame).2 [artSdSame] rfl⟩

/-- C6: `parse_articles` is a pure function of the markup — equal inputs
give identical result sequences (no randomness, clock, or call-to-call
state exists in the model, which is total and deterministic by
construction). -/
theorem parse_articles_deterministic (d₁ d₂ : Node) (h : d₁ = d₂) :
    parse_articles d₁ = parse_articles d₂ := by rw [h]

/-- Witness for C6. -/
theorem parse_articles_deterministic_witness :
    parse_articles docTwoCards = parse_articles docTwoCards :=
  parse_articles_deterministic docTwoCards docTwoCards rfl

/-- Counterexample to C1: in `docTwoContainers` the highest-priority
productive container selector (`div.view-content`) has two matches, the
second of which holds a parseable card (`artCont2`), yet the returned
list holds only the first container's card — the strategy stops at the
first productive container element, not at the first productive
container selector. -/
theorem containers_first_element_counterexample :
    containerMatches docTwoContainers
        = select (.tagClass "div" "view-content") (rootLoc docTwoContainers) ∧
    (containerMatches docTwoContainers).getLast? = some secondContainerLoc ∧
    (iter_article_nodes secondContainerLoc).map parse_article_card = [some artCont2] ∧
    parse_articles docTwoContainers = some [artCont1] ∧
    artCont2 ∉ [artCont1] :=
  ⟨rfl, rfl, rfl, rfl, by decide⟩

/-- C1 (amended): the matches of all container selectors are
concatenated in selector-priority order (document order within one
selector); the first container element in that list that yields at least
one successfully parsed card wins, and the result is exactly that single
element's cards, deduplicated by URL — so cards of different container
elements (and hence of different selectors) are never mixed. -/
theorem parse_from_containers_first_productive (root : Node) :
    parse_from_containers root = firstProductive (effContainers root) := by
  rw [parse_from_containers_eq, containersRaw, dedup_firstRaw]

/-- C5: within one call no two returned Articles share a `url`, and each
strategy's output is exactly the first-seen-kept URL dedup of its raw
discovery stream (first-discovery order preserved, later duplicates
dropped). -/
theorem parse_articles_unique_urls (root : Node) :
    (∀ arts, parse_articles root = some arts →
      arts.Pairwise (fun a b => a.url ≠ b.url)) ∧
    parse_from_containers root = dedupFirstSeen (containersRaw root) [] ∧
    parse_from_structured_data root = dedupFirstSeen (sdRaw root) [] ∧
    parse_from_links root = dedupFirstSeen (linksRaw root) [] := by
  refine ⟨?_, parse_from_containers_eq root, parse_from_structured_data_eq root,
    parse_from_links_eq root⟩
  intro arts h
  have hcases : arts = parse_from_containers root ∨
      arts = parse_from_structured_data root ∨ arts = parse_from_links root := by
    unfold parse_articles at h
    by_cases h1 : parse_from_containers root = []
    · by_cases h2 : parse_from_structured_data root = []
      · by_cases h3 : parse_from_links root = []
        · simp [List.isEmpty_iff, h1, h2, h3] at h
        · simp [List.isEmpty_iff, h1, h2, h3] at h
          exact Or.inr (Or.inr h.symm)
      · simp [List.isEmpty_iff, h1, h2] at h
        exact Or.inr (Or.inl h.symm)
    · simp [List.isEmpty_iff, h1] at h
      exact Or.inl h.symm
  rcases hcases with rfl | rfl | rfl
  · rw [parse_from_containers_eq]
    exact dedupFirstSeen_pairwise _ _
  · rw [parse_from_structured_data_eq]
    exact dedupFirstSeen_pairwise _ _
  · rw [parse_from_links_eq]
    exact dedupFirstSeen_pairwise _ _

/-- Witness for C5: the two-card document's result has pairwise distinct
URLs. -/
theorem parse_articles_unique_urls_witness :
    [artTwoCards1, artTwoCards2].Pairwise (fun a b => a.url ≠ b.url) :=
  (parse_articles_unique_urls docTwoCards).1 [artTwoCards1, artTwoCards2] rfl

/-- Counterexample to C4: a structured-data article may have a non-empty
summary equal to its title — `_article_from_json` applies no
title-vs-summary guard (`docSdSame` embeds a payload whose `description`
equals its `headline`). -/
theorem summary_eq_title_counterexample :
    parse_articles docSdSame = some [artSdSame] ∧
    artSdSame.summary ≠ "" ∧ artSdSame.summary = artSdSame.title :=
  ⟨rfl, by decide, rfl⟩

/-- C4 (amended): every Article produced by the container/card strategy
has `summary ≠ title` whenever its summary is non-empty (the extractor
is called with the decoded title as `exclude_text`); the structured-data
strategy applies no such guard, and the link-fallback strategy only
excludes the raw (undecoded) anchor text. -/
theorem container_summary_ne_title (root : Node) (a : Article)
    (ha : a ∈ parse_from_containers root) (hs : a.summary ≠ "") :
    a.summary ≠ a.title := by
  obtain ⟨loc, hloc⟩ := mem_containers_exists_card root a ha
  have hsum := parse_article_card_fields loc a hloc
  by_cases ht : a.title = ""
  · rw [ht]
    exact hs
  · rw [hsum]
    exact extract_summary_ne_exclude loc a.title ht (hsum ▸ hs)

/-- Witness for C4 (amended): the first article of the two-card document
has a non-empty summary that differs from its title. -/
theorem container_summary_ne_title_witness :
    artTwoCards1.summary ≠ artTwoCards1.title :=
  container_summary_ne_title docTwoCards artTwoCards1 (by decide) (by decide)

theorem exists_mem_of_findSome_eq_some {α β : Type} (f : α → Option β) (b : β) :
    ∀ (l : List α), l.findSome? f = some b → ∃ a ∈ l, f a = some b
  | [], h => by simp [List.findSome?] at h
  | a :: rest, h => by
    rw [List.findSome?_cons] at h
    revert h
    cases hf : f a with
    | some b' =>
      intro h
      cases h
      exact ⟨a, List.mem_cons_self _ _, hf⟩
    | none =>
      intro h
      obtain ⟨a', ha', hfa'⟩ := exists_mem_of_findSome_eq_some f b rest h
      exact ⟨a', List.mem_cons_of_mem _ ha', hfa'⟩

/-- C7: the summary extractor tries all its selectors in priority order
at each level of the ancestor chain before ascending; it consults at
most the node plus 5 ancestor hops (the walk is a total function, so it
always terminates); a non-empty result is one of those levels' first
accepted hit; and every accepted hit is a non-empty trimmed text that
differs from a non-empty `exclude_text`. -/
theorem extract_summary_spec (l : Loc) (ex : Option String) :
    extract_summary l ex =
      (((chainOf l).take 6).findSome? (summaryHit ex)).getD "" ∧
    (∀ s, extract_summary l ex = s → s ≠ "" →
      ∃ cur ∈ (chainOf l).take 6, summaryHit ex cur = some s) ∧
    (∀ cur s, summaryHit ex cur = some s →
      s ≠ "" ∧ ∀ e, ex = some e → e ≠ "" → s ≠ e) := by
  refine ⟨extractSummaryWalk_eq_take ex (chainOf l) 0, ?_, ?_⟩
  · intro s hres hne
    rw [extract_summary, extractSummaryWalk_eq_take ex (chainOf l) 0] at hres
    revert hres
    cases hf : ((chainOf l).take (6 - 0)).findSome? (summaryHit ex) with
    | none =>
      intro hres
      exact absurd hres.symm hne
    | some s' =>
      intro hres
      cases hres
      exact exists_mem_of_findSome_eq_some _ _ _ hf
  · intro cur s h
    exact summaryOk_spec ex s (summaryHit_ok ex cur s h)

/-- Witness for C7: on a concrete card the non-empty extracted summary
is a hit within the 6-level budget. -/
theorem extract_summary_spec_witness :
    ∃ cur ∈ (chainOf cardWithSummary).take 6,
      summaryHit (some "T") cur = some "S" :=
  (extract_summary_spec cardWithSummary (some "T")).2.1 "S" rfl (by decide)

/-- Counterexample to C8: the payload `d8fields` has a non-empty string
url-like field (`@id`) and a non-empty title, and declares no type, so
the claim accepts it; but `_article_from_json` discards it, because the
truthy non-string value under `url` shadows `@id` in the `or`-chained
alias lookup. -/
theorem structured_accept_counterexample :
    specC8Accepts d8fields = true ∧ article_from_json (.obj d8fields) = none :=
  ⟨rfl, rfl⟩

/-- C8 (amended): the acceptance test of `_article_from_json` is: the
first truthy value in the alias chain url → @id must be a string that is
non-empty after stripping, likewise for headline → name → title → text,
and if any type strings are declared at least one must be in the
allow-set; a payload declaring no type is accepted, and a failing
payload is discarded without error (`none`).  In particular a truthy
non-string url shadows a valid `@id` (and likewise for titles), which is
where the claim's per-alias reading fails. -/
theorem article_from_json_accepts_iff (fields : List (String × Json)) :
    (article_from_json (.obj fields)).isSome =
      ((let types := typeStrings
          (pyOr ((Json.obj fields).get "@type") ((Json.obj fields).get "type"))
        types.isEmpty || types.any (fun t => allowedTypes.contains t)) &&
       pyStrOk (pyOr ((Json.obj fields).get "url") ((Json.obj fields).get "@id")) &&
       pyStrOk (pyOr ((Json.obj fields).get "headline")
         (pyOr ((Json.obj fields).get "name")
           (pyOr ((Json.obj fields).get "title") ((Json.obj fields).get "text"))))) := by
  simp only [article_from_json]
  generalize typeStrings
    (pyOr ((Json.obj fields).get "@type") ((Json.obj fields).get "type")) = T
  generalize pyOr ((Json.obj fields).get "url") ((Json.obj fields).get "@id") = U
  generalize pyOr ((Json.obj fields).get "headline")
    (pyOr ((Json.obj fields).get "name")
      (pyOr ((Json.obj fields).get "title") ((Json.obj fields).get "text"))) = H
  by_cases hty : (!T.isEmpty && !T.any (fun t => allowedTypes.contains t)) = true
  · have hT : (T.isEmpty || T.any (fun t => allowedTypes.contains t)) = false := by
      cases hA : T.isEmpty <;> cases hB : T.any (fun t => allowedTypes.contains t) <;>
        simp_all
      obtain ⟨x, hx1, hx2⟩ := hB
      exact hty x hx1 hx2
    rw [if_pos hty, hT]
    rfl
  · have hT : (T.isEmpty || T.any (fun t => allowedTypes.contains t)) = true := by
      cases hA : T.isEmpty <;> cases hB : T.any (fun t => allowedTypes.contains t) <;>
        simp_all
      obtain ⟨x, hx1, hx2⟩ := hty
      exact hB x hx1 hx2
    rw [if_neg hty, hT, Bool.true_and]
    cases U with
    | str u =>
      by_cases hu : pyStrip u = ""
      · simp [pyStrOk, hu]
      · cases H with
        | str t =>
          by_cases hth : pyStrip t = ""
          · simp [pyStrOk, hu, hth]
          · simp [pyStrOk, hu, hth]
        | null => simp [pyStrOk, hu]
        | bool b => simp [pyStrOk, hu]
        | num n => simp [pyStrOk, hu]
        | arr l => simp [pyStrOk, hu]
        | obj o => simp [pyStrOk, hu]
    | null => simp [pyStrOk]
    | bool b => simp [pyStrOk]
    | num n => simp [pyStrOk]
    | arr l => simp [pyStrOk]
    | obj o => simp [pyStrOk]

/-- C9: when no container-level selector matches anywhere in the
document, the container strategy searches card nodes over the whole
document (`containers = [soup]`); if any card parses there the container
strategy resolves the call, so structured-data and link-fallback are
never reached. -/
theorem containers_whole_document_fallback (root : Node)
    (h : containerMatches root = []) :
    parse_from_containers root = cardsOf (rootLoc root) ∧
    (cardsOf (rootLoc root) ≠ [] →
      parse_articles root = some (cardsOf (rootLoc root))) := by
  have h1 : parse_from_containers root = cardsOf (rootLoc root) := by
    unfold parse_from_containers
    rw [h]
    simp only [List.isEmpty_nil, if_true]
    rw [containersGo_eq]
    by_cases hc : cardsRaw (rootLoc root) = []
    · simp [firstRaw, hc, cardsOf, dedupFirstSeen]
    · simp [firstRaw, hc, cardsOf]
  refine ⟨h1, ?_⟩
  intro hne
  unfold parse_articles
  simp [List.isEmpty_iff, h1, hne]

/-- Witness for C9: a document whose only card is an `article` node
outside any recognized container region is resolved by the container
strategy. -/
theorem containers_whole_document_fallback_witness :
    parse_articles docNoContainer = some (cardsOf (rootLoc docNoContainer)) :=
  (containers_whole_document_fallback docNoContainer rfl).2 (by decide)

theorem parse_article_card_of_tight (card tl : Loc)
    (h1 : selectOneAny title_selectors card = some tl) :
    parse_article_card card =
      (if getTextStrip tl.node = "" then none
       else some { title := unescape (getTextStrip tl.node),
                   url := urljoin BASE_URL (pyStrip ((tl.node.attrOf "href").getD "")),
                   summary := extract_summary card (some (unescape (getTextStrip tl.node))),
                   date := extract_date card }) := by
  unfold parse_article_card
  rw [h1]

/-- C10: a card whose title anchor (found by the tight selector set) has
non-empty text but no `href` is kept and its Article's url is the base
origin — the result of resolving the empty href against `BASE_URL` —
whereas `_parse_article_from_link` discards an anchor whose `href` is
missing or empty. -/
theorem card_without_href_kept (card tl link : Loc)
    (h1 : selectOneAny title_selectors card = some tl)
    (h2 : tl.node.attrOf "href" = none)
    (h3 : getTextStrip tl.node ≠ "")
    (h4 : link.node.attrOf "href" = none ∨ link.node.attrOf "href" = some "") :
    (∃ a, parse_article_card card = some a ∧ a.url = BASE_URL) ∧
    urljoin BASE_URL "" = BASE_URL ∧
    parse_article_from_link link = none := by
  refine ⟨?_, rfl, ?_⟩
  · refine ⟨{ title := unescape (getTextStrip tl.node),
              url := urljoin BASE_URL (pyStrip ((tl.node.attrOf "href").getD "")),
              summary := extract_summary card (some (unescape (getTextStrip tl.node))),
              date := extract_date card }, ?_, ?_⟩
    · rw [parse_article_card_of_tight card tl h1, if_neg h3]
    · rw [h2]
      rfl
  · unfold parse_article_from_link
    rcases h4 with h4 | h4
    · rw [h4]
    · rw [h4]
      simp

/-- Witness for C10. -/
theorem card_without_href_kept_witness :
    (∃ a, parse_article_card cardNoHref = some a ∧ a.url = BASE_URL) ∧
    urljoin BASE_URL "" = BASE_URL ∧
    parse_article_from_link anchorEmptyHref = none :=
  card_without_href_kept cardNoHref anchorNoHref anchorEmptyHref rfl rfl
    (by decide) (Or.inr rfl)
